import Mathlib

/-!
Verification development for the report-downloader repository.

The server (src/server/src/index.ts) keeps an in-memory `Map` from job id to
a report record and exposes three HTTP endpoints:
  * `POST /api/generate-report`  — validates the name, inserts a `pending`
    record, schedules a one-shot deferred completion, returns the job id;
  * `GET /api/report-status/:jobId` — a server-sent-event stream that emits
    the current record, re-polls on a timer, and closes on terminal status;
  * `GET /api/download-report/:jobId` — serves a stub CSV once completed.

The client hook (useReportGeneration) keeps a local job list, rehydrates it
from local storage with a status/age filter, and triggers a download
navigation on the first `completed` message per job.

Everything below is a shallow embedding of that code: timestamps are `Nat`
milliseconds, the `Map` is a function `String → Option ReportData`, the
stream is modelled as the list of messages produced from a list of store
snapshots (one per poll tick), and the deferred `setTimeout` callback is an
explicit scheduled-task value consumed by a transition system.
-/

/-- Job status, `'pending' | 'completed' | 'failed'` in the TypeScript source. -/
inductive Status where
  | pending
  | completed
  | failed
deriving DecidableEq, Repr

/-- The server-side report record (interface `ReportData` in index.ts).
`filePath` and `error` are optional fields; an absent field is `none`. -/
structure ReportData where
  status : Status
  name : String
  createdAt : Nat
  filePath : Option String := none
  error : Option String := none
deriving DecidableEq, Repr

/-- The in-memory store `reports : Map<string, ReportData>`, modelled
extensionally as a partial function from job ids to records. -/
abbrev Store := String → Option ReportData

namespace Store

/-- The empty map: no jobs. -/
def empty : Store := fun _ => none

/-- `reports.set(id, r)`: insert or overwrite the record at `id`. -/
def set (s : Store) (id : String) (r : ReportData) : Store :=
  fun k => if k = id then some r else s k

/-- `reports.delete(id)`: remove the record at `id`. -/
def delete (s : Store) (id : String) : Store :=
  fun k => if k = id then none else s k

end Store

/-- `listStartsWith hay pat`: does `hay` start with `pat`?  Used to embed
JavaScript's `String.prototype.includes`. -/
def listStartsWith : List Char → List Char → Bool
  | _, [] => true
  | [], _ :: _ => false
  | c :: cs, p :: ps => (c == p) && listStartsWith cs ps

/-- `listContainsSub hay pat`: does `hay` contain `pat` as a contiguous
sublist? -/
def listContainsSub : List Char → List Char → Bool
  | [], pat => pat.isEmpty
  | c :: rest, pat => listStartsWith (c :: rest) pat || listContainsSub rest pat

/-- JavaScript `s.includes(pat)` on strings. -/
def strIncludes (s pat : String) : Bool :=
  listContainsSub s.toList pat.toList

/-- `toLowerCase` on one character, for the ASCII range the repository's
report names live in. -/
def lowerChar (c : Char) : Char :=
  if 'A' ≤ c ∧ c ≤ 'Z' then Char.ofNat (c.toNat + 32) else c

/-- `name.toLowerCase()` (ASCII fragment). -/
def lowerString (s : String) : String :=
  String.mk (s.toList.map lowerChar)

/-- One pass of `replace(/\s+/g, '-')`: each maximal run of whitespace
becomes a single `'-'`.  The boolean tracks whether the previous character
was inside a whitespace run. -/
def collapseWs : List Char → Bool → List Char
  | [], _ => []
  | c :: rest, inRun =>
    if c.isWhitespace then
      if inRun then collapseWs rest true
      else '-' :: collapseWs rest true
    else c :: collapseWs rest false

/-- `name.toLowerCase().replace(/\s+/g, '-')`, as used for both the
synthesized file path and the attachment filename. -/
def slugify (s : String) : String :=
  String.mk (collapseWs (lowerString s).toList false)

/-- The 30-minute expiry window, in milliseconds (`30 * 60 * 1000`). -/
def expiryWindow : Nat := 30 * 60 * 1000

/-- `report.createdAt < Date.now() - 30 * 60 * 1000`.  With `Nat`
truncating subtraction this matches the JavaScript comparison: when
`now < expiryWindow` the right-hand side clamps at zero and no record is
expired, exactly as a non-negative `createdAt` compares in JS. -/
def isExpired (r : ReportData) (now : Nat) : Bool :=
  decide (r.createdAt < now - expiryWindow)

/-- `status === 'completed' || status === 'failed'`. -/
def isTerminal : Status → Bool
  | .pending => false
  | .completed => true
  | .failed => true

/-- The delay heuristic of the generation endpoint:
`name.toLowerCase().includes('sales') ? 8000 : 5000`. -/
def generateDelay (name : String) : Nat :=
  if strIncludes (lowerString name) "sales" then 8000 else 5000

/-- The pending `setTimeout` callback scheduled by the generation endpoint,
with the values it captures by closure: the job id, the name, the creation
timestamp and the delay. -/
structure ScheduledTask where
  jobId : String
  name : String
  createdAt : Nat
  delay : Nat
deriving DecidableEq, Repr

/-- Response of `POST /api/generate-report`: either the 400 validation
error or the 200 `{ jobId }` body. -/
inductive GenOutcome where
  | validationError (statusCode : Nat) (msg : String)
  | created (jobId : String)
deriving DecidableEq, Repr

/-- Full effect of one call to the generation endpoint: the HTTP outcome,
the store afterwards, and the scheduled deferred completion (if any). -/
structure GenResult where
  outcome : GenOutcome
  store : Store
  task : Option ScheduledTask

/-- `POST /api/generate-report`.  `jobId` is the value returned by
`uuidv4()` and `now` the value of `Date.now()`; both are inputs of the
embedding.  `if (!name)` on a string is the emptiness test. -/
def generateReport (store : Store) (name jobId : String) (now : Nat) :
    GenResult :=
  if name = "" then
    { outcome := .validationError 400 "Report name is required",
      store := store,
      task := none }
  else
    { outcome := .created jobId,
      store := store.set jobId { status := .pending, name := name, createdAt := now },
      task := some { jobId := jobId, name := name, createdAt := now,
                     delay := generateDelay name } }

/-- The file path synthesized inside the deferred callback:
`/reports/${name.toLowerCase().replace(/\s+/g, '-')}-${jobId}.csv`. -/
def synthFilePath (t : ScheduledTask) : String :=
  "/reports/" ++ slugify t.name ++ "-" ++ t.jobId ++ ".csv"

/-- The body of the `setTimeout` callback.  The `try` block consists of a
template-string construction and a `Map.set`, neither of which can throw,
so the `catch` branch that would store a `failed` record is dead code; the
embedding is the `try` block alone. -/
def completeJob (store : Store) (t : ScheduledTask) : Store :=
  store.set t.jobId
    { status := .completed, name := t.name, createdAt := t.createdAt,
      filePath := some (synthFilePath t) }

/-- One server-sent-event frame: either `{ error: msg }` or the serialized
current record. -/
inductive SseMsg where
  | errMsg (msg : String)
  | record (r : ReportData)
deriving DecidableEq, Repr

/-- The `checkStatus` polling loop of `GET /api/report-status/:jobId`.
Each element of the snapshot list is the store as seen at one tick of the
50-second timer (the first element is the store at the initial synchronous
call).  The loop writes the current record, stops after a terminal record
or a missing record, and otherwise re-arms the timer. -/
def checkStatusLoop (jobId : String) : List Store → List SseMsg
  | [] => []
  | store :: rest =>
    match store jobId with
    | none => [SseMsg.errMsg "Report not found"]
    | some r =>
      if isTerminal r.status then [SseMsg.record r]
      else SseMsg.record r :: checkStatusLoop jobId rest

/-- `GET /api/report-status/:jobId`: the list of frames written and the
store after the handler's own synchronous mutations (it deletes the record
when expired, and never mutates otherwise).  `laterSnaps` are the store
snapshots for the later timer ticks. -/
def reportStatusEndpoint (store : Store) (jobId : String) (now : Nat)
    (laterSnaps : List Store) : List SseMsg × Store :=
  match store jobId with
  | none => ([SseMsg.errMsg "Report not found"], store)
  | some r =>
    if isExpired r now then
      ([SseMsg.errMsg "Report expired"], store.delete jobId)
    else
      (checkStatusLoop jobId (store :: laterSnaps), store)

/-- JavaScript falsiness of `report.filePath`: absent or the empty
string. -/
def strOptFalsy : Option String → Bool
  | none => true
  | some s => s == ""

/-- Response of `GET /api/download-report/:jobId`. -/
inductive DownloadOutcome where
  | notFound (statusCode : Nat) (msg : String)
  | notReady (statusCode : Nat) (msg : String)
  | expired (statusCode : Nat) (msg : String)
  | success (csv contentType disposition : String)
deriving DecidableEq, Repr

/-- The stub CSV body: header plus rows chosen by
`report.name.toLowerCase().includes('sales')`. -/
def downloadCsv (name : String) : String :=
  "id,name,value\n" ++
    (if strIncludes (lowerString name) "sales" then
      "1,Product A,1000\n2,Product B,2000\n3,Product C,3000"
    else
      "1,Item X,50\n2,Item Y,75\n3,Item Z,100")

/-- `GET /api/download-report/:jobId`: outcome and resulting store.  The
checks run in source order: unknown id (404), then not-completed or falsy
`filePath` (400), then expiry (400, with deletion), then the CSV
response. -/
def downloadReport (store : Store) (jobId : String) (now : Nat) :
    DownloadOutcome × Store :=
  match store jobId with
  | none => (.notFound 404 "Report not found", store)
  | some report =>
    if report.status ≠ .completed ∨ strOptFalsy report.filePath = true then
      (.notReady 400 "Report is not ready for download", store)
    else if isExpired report now then
      (.expired 400 "Report has expired", store.delete jobId)
    else
      (.success (downloadCsv report.name) "text/csv"
        ("attachment; filename=" ++ slugify report.name ++ ".csv"), store)

/-! ## The server as a transition system

The server is single-threaded and event-driven: every observable history is
an interleaving of request handlers and fired timer callbacks.  A system
state is the store together with the scheduled-but-not-yet-fired deferred
completions and the list of job ids `uuidv4()` has handed out so far
(`uuidv4` is modelled as an oracle that never repeats an id, which is the
freshness contract the code relies on). -/

structure SysState where
  store : Store
  tasks : List ScheduledTask
  usedIds : List String

/-- State after a successful or failed `POST /api/generate-report`. -/
def genSucc (s : SysState) (name jobId : String) (now : Nat) : SysState :=
  let g := generateReport s.store name jobId now
  { store := g.store,
    tasks := (match g.task with | some t => t :: s.tasks | none => s.tasks),
    usedIds := jobId :: s.usedIds }

/-- State after the deferred `setTimeout` callback for `t` fires. -/
def completeSucc (s : SysState) (t : ScheduledTask) : SysState :=
  { s with store := completeJob s.store t, tasks := s.tasks.erase t }

/-- State after a `GET /api/report-status/:jobId` request. -/
def statusSucc (s : SysState) (jobId : String) (now : Nat)
    (snaps : List Store) : SysState :=
  { s with store := (reportStatusEndpoint s.store jobId now snaps).2 }

/-- State after a `GET /api/download-report/:jobId` request. -/
def downloadSucc (s : SysState) (jobId : String) (now : Nat) : SysState :=
  { s with store := (downloadReport s.store jobId now).2 }

/-- One event of the server's event loop. -/
inductive Step : SysState → SysState → Prop where
  | gen (s : SysState) (name jobId : String) (now : Nat)
      (hname : name ≠ "") (hfresh : jobId ∉ s.usedIds) :
      Step s (genSucc s name jobId now)
  | complete (s : SysState) (t : ScheduledTask) (ht : t ∈ s.tasks) :
      Step s (completeSucc s t)
  | statusAccess (s : SysState) (jobId : String) (now : Nat)
      (snaps : List Store) :
      Step s (statusSucc s jobId now snaps)
  | download (s : SysState) (jobId : String) (now : Nat) :
      Step s (downloadSucc s jobId now)

/-- The state at process start: empty store, nothing scheduled. -/
def initState : SysState :=
  { store := Store.empty, tasks := [], usedIds := [] }

/-- States the server can actually be in. -/
inductive Reachable : SysState → Prop where
  | init : Reachable initState
  | step {s s' : SysState} : Reachable s → Step s s' → Reachable s'

/-- Well-formedness of a single stored record: a pending record has no
payload yet, a completed record has a file path, and no record is failed
(the `catch` branch of the generator is dead). -/
def RecordOK (r : ReportData) : Prop :=
  (r.status = .pending → r.filePath = none ∧ r.error = none) ∧
  (r.status = .completed → r.filePath ≠ none) ∧
  r.status ≠ .failed

/-- Inductive invariant of the reachable states. -/
def SysInv (s : SysState) : Prop :=
  s.usedIds.Nodup ∧
  (∀ t ∈ s.tasks, t.jobId ∈ s.usedIds) ∧
  s.tasks.Pairwise (fun a b => a.jobId ≠ b.jobId) ∧
  (∀ id r, s.store id = some r → id ∈ s.usedIds ∧ RecordOK r) ∧
  (∀ t ∈ s.tasks, ∀ r, s.store t.jobId = some r →
    r.status = .pending ∧ r.name = t.name ∧ r.createdAt = t.createdAt)

/-- A pending record created at time 0, used to exercise the expiry
branches at `now = expiryWindow + 1`. -/
def expRecord : ReportData :=
  { status := Status.pending, name := "Old Report", createdAt := 0 }

/-- A store holding only the expired pending job `j1`. -/
def expStore : Store := Store.empty.set "j1" expRecord

/-- A completed record created at time 0, for the expiry-deletion path of
the download endpoint. -/
def expDoneRecord : ReportData :=
  { status := Status.completed, name := "Old Report", createdAt := 0,
    filePath := some "/reports/old-report-j2.csv" }

/-- A store holding only the expired completed job `j2`. -/
def expDoneStore : Store := Store.empty.set "j2" expDoneRecord

/-! ## The client hook (useReportGeneration) -/

/-- The client-side status value (`ReportStatus` in the hook): the parsed
frame plus an optional locally refreshed timestamp. -/
structure ClientStatus where
  status : Status
  error : Option String := none
  timestamp : Option Nat := none
deriving DecidableEq, Repr

/-- A client job entry (`ReportJob` in the hook).  `downloaded` is the
client-only flag that suppresses duplicate download navigations; the
optional JavaScript field is falsy when absent, so it is a plain `Bool`
here. -/
structure ReportJob where
  id : String
  status : ClientStatus
  name : String
  createdAt : Nat
  downloaded : Bool := false
deriving DecidableEq, Repr

/-- `DEFAULT_STORAGE_CONFIG.expiryTime`: 30 minutes in milliseconds. -/
def defaultExpiryTime : Nat := 30 * 60 * 1000

/-- The `useState` initializer: parse the stored job list and keep only
jobs that are not completed and not expired
(`job.status.status !== 'completed' && Date.now() - job.createdAt < expiryTime`). -/
def rehydrateJobs (stored : List ReportJob) (now expiryTime : Nat) :
    List ReportJob :=
  stored.filter (fun job =>
    decide (job.status.status ≠ Status.completed) &&
    decide (now - job.createdAt < expiryTime))

/-- The `onmessage` update for a single list entry: a matching entry gets
the parsed status with a refreshed timestamp; on the first `completed`
observation of a not-yet-downloaded entry the download navigation fires
(counted as `1`) and the entry is marked downloaded. -/
def updateJob (streamId : String) (data : ClientStatus) (now : Nat)
    (j : ReportJob) : ReportJob × Nat :=
  if j.id = streamId then
    if data.status = Status.completed ∧ j.downloaded = false then
      ({ j with status := { data with timestamp := some now },
                downloaded := true }, 1)
    else
      ({ j with status := { data with timestamp := some now } }, 0)
  else (j, 0)

/-- One `onmessage` event on the stream of `streamId`: `setJobs(prev =>
prev.map(...))`, returning the new list and the number of download
navigations the map triggered. -/
def applyMessage (streamId : String) (data : ClientStatus) (now : Nat) :
    List ReportJob → List ReportJob × Nat
  | [] => ([], 0)
  | j :: rest =>
    ((updateJob streamId data now j).1 ::
        (applyMessage streamId data now rest).1,
      (updateJob streamId data now j).2 +
        (applyMessage streamId data now rest).2)

/-- A whole sequence of frames on the stream of `streamId`, each with the
time it is handled at; returns the final list and the total number of
download navigations. -/
def runMessages (streamId : String) :
    List ReportJob → List (ClientStatus × Nat) → List ReportJob × Nat
  | jobs, [] => (jobs, 0)
  | jobs, (d, t) :: msgs =>
    ((runMessages streamId (applyMessage streamId d t jobs).1 msgs).1,
      (applyMessage streamId d t jobs).2 +
        (runMessages streamId (applyMessage streamId d t jobs).1 msgs).2)

/-- Weight of one entry towards a future download trigger: 1 when it
matches the stream and is not yet marked downloaded. -/
def undlWeight (streamId : String) (j : ReportJob) : Nat :=
  if j.id = streamId ∧ j.downloaded = false then 1 else 0

/-- Number of entries of the list that can still trigger a download on the
stream of `streamId`. -/
def undlCount (streamId : String) : List ReportJob → Nat
  | [] => 0
  | j :: rest => undlWeight streamId j + undlCount streamId rest

/-- The task scheduled for the C6 scenario: "Sales Report" gets the
8000 ms delay. -/
def c6Task : ScheduledTask :=
  { jobId := "job-1", name := "Sales Report", createdAt := 1000, delay := 8000 }

/-- Store of the C6 scenario after the deferred completion fired. -/
def c6Store : Store :=
  completeJob (generateReport Store.empty "Sales Report" "job-1" 1000).store c6Task

/-- The CSV the stub serves for a name containing "sales". -/
def salesCsvContent : String :=
  "id,name,value\n1,Product A,1000\n2,Product B,2000\n3,Product C,3000"

/-- State after one valid generation (name "A", id "j1", at time 0). -/
def c1State : SysState := genSucc initState "A" "j1" 0

/-- The task that generation schedules ("A" gets the 5000 ms delay). -/
def c1Task : ScheduledTask :=
  { jobId := "j1", name := "A", createdAt := 0, delay := 5000 }

/-- The record right after generation. -/
def c1Pending : ReportData :=
  { status := Status.pending, name := "A", createdAt := 0 }

/-- The record after the deferred completion fires. -/
def c1Completed : ReportData :=
  { status := Status.completed, name := "A", createdAt := 0,
    filePath := some "/reports/a-j1.csv" }

/-- A failed client job inside the expiry window, as stored. -/
def c8Job : ReportJob :=
  { id := "a",
    status := { status := Status.failed, error := some "Connection error",
                timestamp := some 5 },
    name := "R", createdAt := 0, downloaded := false }

/-- A pending client job watching stream "a". -/
def c9Job : ReportJob :=
  { id := "a", status := { status := Status.pending }, name := "R",
    createdAt := 0, downloaded := false }

/-- A completed status frame. -/
def c9Done : ClientStatus := { status := Status.completed }

theorem Store.set_self (s : Store) (id : String) (r : ReportData) :
    s.set id r id = some r := by
  simp [Store.set]

theorem Store.set_other (s : Store) (id : String) (r : ReportData) (k : String)
    (h : k ≠ id) : s.set id r k = s k := by
  simp [Store.set, h]

theorem Store.delete_self (s : Store) (id : String) : s.delete id id = none := by
  simp [Store.delete]

theorem Store.delete_other (s : Store) (id k : String) (h : k ≠ id) :
    s.delete id k = s k := by
  simp [Store.delete, h]

theorem generateReport_of_ne (store : Store) (name jobId : String) (now : Nat)
    (h : name ≠ "") :
    generateReport store name jobId now =
      { outcome := .created jobId,
        store := store.set jobId { status := .pending, name := name, createdAt := now },
        task := some { jobId := jobId, name := name, createdAt := now,
                       delay := generateDelay name } } := by
  simp [generateReport, h]

/-- The status endpoint's only store mutation is the expiry deletion. -/
theorem reportStatus_store_cases (store : Store) (jobId : String) (now : Nat)
    (snaps : List Store) :
    (reportStatusEndpoint store jobId now snaps).2 = store ∨
    (reportStatusEndpoint store jobId now snaps).2 = store.delete jobId := by
  unfold reportStatusEndpoint
  cases h : store jobId with
  | none => exact Or.inl rfl
  | some r =>
    by_cases he : isExpired r now
    · simp [he]
    · simp [he]

/-- The download endpoint's only store mutation is the expiry deletion. -/
theorem download_store_cases (store : Store) (jobId : String) (now : Nat) :
    (downloadReport store jobId now).2 = store ∨
    (downloadReport store jobId now).2 = store.delete jobId := by
  unfold downloadReport
  cases h : store jobId with
  | none => exact Or.inl rfl
  | some r =>
    by_cases hnr : r.status ≠ Status.completed ∨ strOptFalsy r.filePath = true
    · simp [hnr]
    · by_cases he : isExpired r now <;> simp [hnr, he]

/-- A record present after a step of either read endpoint was present,
unchanged, before it. -/
theorem store_mono_of_cases {s s' : Store} {jobId : String}
    (h : s' = s ∨ s' = s.delete jobId) (id : String) (r : ReportData)
    (hr : s' id = some r) : s id = some r := by
  rcases h with h | h
  · rw [h] at hr; exact hr
  · rw [h] at hr
    by_cases hid : id = jobId
    · rw [hid] at hr; rw [Store.delete_self] at hr; cases hr
    · rw [Store.delete_other _ _ _ hid] at hr; exact hr

theorem sysInv_init : SysInv initState := by
  refine ⟨List.nodup_nil, ?_, List.Pairwise.nil, ?_, ?_⟩ <;>
    simp [initState, Store.empty]

theorem genSucc_eq (s : SysState) (name jobId : String) (now : Nat)
    (h : name ≠ "") :
    genSucc s name jobId now =
      { store := s.store.set jobId { status := .pending, name := name, createdAt := now },
        tasks := { jobId := jobId, name := name, createdAt := now,
                   delay := generateDelay name } :: s.tasks,
        usedIds := jobId :: s.usedIds } := by
  simp [genSucc, generateReport_of_ne _ _ _ _ h]

/-- Tasks with pairwise-distinct job ids are pairwise distinct. -/
theorem tasks_nodup_of_pairwise {l : List ScheduledTask}
    (h : l.Pairwise (fun a b => a.jobId ≠ b.jobId)) : l.Nodup :=
  h.imp (fun hne heq => hne (by rw [heq]))

/-- The invariant survives a step with an unchanged or expiry-pruned
store and untouched tasks and ids. -/
theorem sysInv_of_store_cases {s : SysState} (hinv : SysInv s)
    {st' : Store} {jobId : String}
    (h : st' = s.store ∨ st' = s.store.delete jobId) :
    SysInv { s with store := st' } := by
  obtain ⟨hnodup, htid, hpair, hstore, htrec⟩ := hinv
  refine ⟨hnodup, htid, hpair, ?_, ?_⟩
  · intro id r hr
    exact hstore id r (store_mono_of_cases h id r hr)
  · intro t ht r hr
    exact htrec t ht r (store_mono_of_cases h t.jobId r hr)

/-- Preservation: every step of the server keeps the invariant. -/
theorem sysInv_step {s s' : SysState} (hinv : SysInv s) (hstep : Step s s') :
    SysInv s' := by
  obtain ⟨hnodup, htid, hpair, hstore, htrec⟩ := hinv
  cases hstep with
  | gen name jobId now hname hfresh =>
    rw [genSucc_eq s name jobId now hname]
    refine ⟨List.nodup_cons.mpr ⟨hfresh, hnodup⟩, ?_, ?_, ?_, ?_⟩
    · intro t ht
      rcases List.mem_cons.mp ht with h | h
      · rw [h]; exact List.mem_cons_self _ _
      · exact List.mem_cons_of_mem _ (htid t h)
    · refine List.pairwise_cons.mpr ⟨?_, hpair⟩
      intro t ht heq
      apply hfresh
      have hmem := htid t ht
      rw [← heq] at hmem
      exact hmem
    · intro id r hr
      simp only at hr
      by_cases hid : id = jobId
      · subst hid
        rw [Store.set_self] at hr
        obtain rfl := (Option.some.inj hr).symm
        refine ⟨List.mem_cons_self _ _, ?_⟩
        simp [RecordOK]
      · rw [Store.set_other _ _ _ _ hid] at hr
        obtain ⟨hmem, hok⟩ := hstore id r hr
        exact ⟨List.mem_cons_of_mem _ hmem, hok⟩
    · intro t ht r hr
      simp only at hr ht
      rcases List.mem_cons.mp ht with h | h
      · subst h
        rw [Store.set_self] at hr
        obtain rfl := (Option.some.inj hr).symm
        exact ⟨rfl, rfl, rfl⟩
      · have hne : t.jobId ≠ jobId := fun heq => hfresh (heq ▸ htid t h)
        rw [Store.set_other _ _ _ _ hne] at hr
        exact htrec t h r hr
  | complete t ht =>
    have htasksNodup : s.tasks.Nodup := tasks_nodup_of_pairwise hpair
    simp only [completeSucc, completeJob]
    refine ⟨hnodup, ?_, ?_, ?_, ?_⟩
    · intro t' ht'
      exact htid t' (List.mem_of_mem_erase ht')
    · exact hpair.sublist (List.erase_sublist t s.tasks)
    · intro id r hr
      simp only at hr
      by_cases hid : id = t.jobId
      · subst hid
        rw [Store.set_self] at hr
        obtain rfl := (Option.some.inj hr).symm
        refine ⟨htid t ht, ?_⟩
        simp [RecordOK]
      · rw [Store.set_other _ _ _ _ hid] at hr
        exact hstore id r hr
    · intro t' ht' r hr
      simp only at hr ht'
      have ht'mem : t' ∈ s.tasks := List.mem_of_mem_erase ht'
      have ht'ne : t' ≠ t := ((List.Nodup.mem_erase_iff htasksNodup).mp ht').1
      have hjne : t'.jobId ≠ t.jobId := by
        have hsymm : Symmetric (fun a b : ScheduledTask => a.jobId ≠ b.jobId) :=
          fun a b h => h.symm
        exact hpair.forall hsymm ht'mem ht ht'ne
      rw [Store.set_other _ _ _ _ hjne] at hr
      exact htrec t' ht'mem r hr
  | statusAccess jobId now snaps =>
    exact sysInv_of_store_cases ⟨hnodup, htid, hpair, hstore, htrec⟩
      (reportStatus_store_cases s.store jobId now snaps)
  | download jobId now =>
    exact sysInv_of_store_cases ⟨hnodup, htid, hpair, hstore, htrec⟩
      (download_store_cases s.store jobId now)

/-- Every reachable server state satisfies the invariant. -/
theorem sysInv_reachable {s : SysState} (h : Reachable s) : SysInv s := by
  induction h with
  | init => exact sysInv_init
  | step _ hstep ih => exact sysInv_step ih hstep

/-- C1: for every job record in the server store, once created its id, name
and createdAt never change; its status only moves from pending to a
terminal state, at most once, and a terminal record never changes again;
filePath is populated exactly on the transition to completed and error
exactly on the transition to failed (a pending record has neither). -/
theorem job_record_lifecycle {s s' : SysState} (hreach : Reachable s)
    (hstep : Step s s') (id : String) (r r' : ReportData)
    (h : s.store id = some r) (h' : s'.store id = some r') :
    r'.name = r.name ∧ r'.createdAt = r.createdAt ∧
    (r'.status = r.status ∨
      (r.status = Status.pending ∧
        (r'.status = Status.completed ∨ r'.status = Status.failed))) ∧
    (isTerminal r.status = true → r' = r) ∧
    (r.status = Status.pending → r.filePath = none ∧ r.error = none) ∧
    (r'.status = Status.completed → r'.filePath ≠ none) ∧
    (r'.status = Status.failed → r'.error ≠ none) := by
  obtain ⟨hnodup, htid, hpair, hstore, htrec⟩ := sysInv_reachable hreach
  have hok := (hstore id r h).2
  obtain ⟨_, _, _, hstore', _⟩ :=
    sysInv_step ⟨hnodup, htid, hpair, hstore, htrec⟩ hstep
  have hok' := (hstore' id r' h').2
  have hmain : r'.name = r.name ∧ r'.createdAt = r.createdAt ∧
      (r'.status = r.status ∨
        (r.status = Status.pending ∧
          (r'.status = Status.completed ∨ r'.status = Status.failed))) ∧
      (isTerminal r.status = true → r' = r) := by
    cases hstep with
    | gen name jobId now hname hfresh =>
      have hid : id ≠ jobId := by
        intro heq; exact hfresh (heq ▸ (hstore id r h).1)
      rw [genSucc_eq s name jobId now hname] at h'
      simp only at h'
      rw [Store.set_other _ _ _ _ hid] at h'
      obtain rfl := Option.some.inj (h.symm.trans h')
      exact ⟨rfl, rfl, Or.inl rfl, fun _ => rfl⟩
    | complete t ht =>
      simp only [completeSucc, completeJob] at h'
      by_cases hid : id = t.jobId
      · subst hid
        rw [Store.set_self] at h'
        obtain rfl := (Option.some.inj h').symm
        obtain ⟨hp, hn, hc⟩ := htrec t ht r h
        refine ⟨hn.symm, hc.symm, Or.inr ⟨hp, Or.inl rfl⟩, ?_⟩
        intro hterm
        rw [hp] at hterm
        exact absurd hterm (by decide)
      · rw [Store.set_other _ _ _ _ hid] at h'
        obtain rfl := Option.some.inj (h.symm.trans h')
        exact ⟨rfl, rfl, Or.inl rfl, fun _ => rfl⟩
    | statusAccess jobId now snaps =>
      simp only [statusSucc] at h'
      have h'' := store_mono_of_cases
        (reportStatus_store_cases s.store jobId now snaps) id r' h'
      obtain rfl := Option.some.inj (h.symm.trans h'')
      exact ⟨rfl, rfl, Or.inl rfl, fun _ => rfl⟩
    | download jobId now =>
      simp only [downloadSucc] at h'
      have h'' := store_mono_of_cases
        (download_store_cases s.store jobId now) id r' h'
      obtain rfl := Option.some.inj (h.symm.trans h'')
      exact ⟨rfl, rfl, Or.inl rfl, fun _ => rfl⟩
  exact ⟨hmain.1, hmain.2.1, hmain.2.2.1, hmain.2.2.2, hok.1,
    hok'.2.1, fun hf => (hok'.2.2 hf).elim⟩

/-- C7: the failure branch of the deferred transition is unreachable: the
fired callback always stores a completed record with a synthesized file
path, and no reachable server store ever holds a failed record. -/
theorem no_failed_on_server {s : SysState} (hreach : Reachable s)
    (id : String) (r : ReportData) (h : s.store id = some r) :
    r.status ≠ Status.failed ∧
    ∀ (store : Store) (t : ScheduledTask),
      completeJob store t t.jobId =
        some { status := Status.completed, name := t.name,
               createdAt := t.createdAt,
               filePath := some (synthFilePath t) } := by
  obtain ⟨_, _, _, hstore, _⟩ := sysInv_reachable hreach
  refine ⟨(hstore id r h).2.2.2, ?_⟩
  intro store t
  exact Store.set_self _ _ _

/-- C2: the generation endpoint rejects an empty name with a 400 and an
unchanged store; for a non-empty name it inserts a pending record with the
current timestamp at a fresh id, touches no other entry, and returns the
id; ids handed out over the store's lifetime are pairwise distinct. -/
theorem generate_report_contract (store : Store) (name jobId : String)
    (now : Nat) (hname : name ≠ "") :
    (generateReport store "" jobId now).outcome =
      GenOutcome.validationError 400 "Report name is required" ∧
    (generateReport store "" jobId now).store = store ∧
    (generateReport store "" jobId now).task = none ∧
    (generateReport store name jobId now).outcome = GenOutcome.created jobId ∧
    (generateReport store name jobId now).store jobId =
      some { status := Status.pending, name := name, createdAt := now } ∧
    (∀ id, id ≠ jobId → (generateReport store name jobId now).store id = store id) ∧
    (∀ s, Reachable s → s.usedIds.Nodup) := by
  refine ⟨rfl, rfl, rfl, ?_, ?_, ?_, ?_⟩
  · rw [generateReport_of_ne _ _ _ _ hname]
  · rw [generateReport_of_ne _ _ _ _ hname]
    exact Store.set_self _ _ _
  · intro id hid
    rw [generateReport_of_ne _ _ _ _ hname]
    exact Store.set_other _ _ _ _ hid
  · intro s hs
    exact (sysInv_reachable hs).1

/-- The terminal frame is the last message of the polling loop: if every
earlier snapshot shows the job present and non-terminal and some snapshot
shows it terminal, the loop's final message is that terminal record. -/
theorem checkStatusLoop_terminal_last (jobId : String) (pre : List Store)
    (lastS : Store) (rest : List Store) (r : ReportData)
    (hpre : ∀ st ∈ pre, ∃ q, st jobId = some q ∧ isTerminal q.status = false)
    (hlast : lastS jobId = some r) (hterm : isTerminal r.status = true) :
    (checkStatusLoop jobId (pre ++ lastS :: rest)).getLast? =
      some (SseMsg.record r) := by
  induction pre with
  | nil =>
    simp only [List.nil_append, checkStatusLoop]
    rw [hlast]
    simp [hterm]
  | cons st pre ih =>
    obtain ⟨q, hq, hqt⟩ := hpre st (List.mem_cons_self _ _)
    have hpre' : ∀ st ∈ pre, ∃ q, st jobId = some q ∧ isTerminal q.status = false :=
      fun st h => hpre st (List.mem_cons_of_mem _ h)
    simp only [List.cons_append, checkStatusLoop]
    rw [hq]
    simp only [hqt, Bool.false_eq_true, if_false]
    have htail := ih hpre'
    cases hloop : checkStatusLoop jobId (pre ++ lastS :: rest) with
    | nil => rw [hloop] at htail; cases htail
    | cons b l =>
      rw [hloop] at htail
      rw [List.getLast?_cons_cons]
      exact htail

/-- C3 counterexample: the job `j1` exists in the store, yet the stream's
first and only message is an expiry error, not the current record. -/
theorem status_stream_counterexample :
    expStore "j1" = some expRecord ∧
    (reportStatusEndpoint expStore "j1" 1800001 []).1 =
      [SseMsg.errMsg "Report expired"] ∧
    SseMsg.errMsg "Report expired" ≠ SseMsg.record expRecord := by
  decide

/-- C3 amended: the status stream writes the current record immediately
and leaves the store unchanged, unless the job is missing (error frame,
close) or past the expiry window (expiry error frame, record deleted,
close); while polling, once a snapshot shows the job terminal the terminal
record is the last frame before the stream closes. -/
theorem status_stream_behavior (store : Store) (jobId : String) (now : Nat)
    (snaps : List Store) (r : ReportData) (hr : store jobId = some r) :
    (∀ st : Store, st jobId = none →
      reportStatusEndpoint st jobId now snaps =
        ([SseMsg.errMsg "Report not found"], st)) ∧
    (isExpired r now = true →
      reportStatusEndpoint store jobId now snaps =
        ([SseMsg.errMsg "Report expired"], store.delete jobId)) ∧
    (isExpired r now = false →
      (reportStatusEndpoint store jobId now snaps).1.head? =
        some (SseMsg.record r) ∧
      (reportStatusEndpoint store jobId now snaps).2 = store) ∧
    (∀ (pre : List Store) (lastS : Store) (rest : List Store) (q : ReportData),
      (∀ st ∈ pre, ∃ p, st jobId = some p ∧ isTerminal p.status = false) →
      lastS jobId = some q → isTerminal q.status = true →
      (checkStatusLoop jobId (pre ++ lastS :: rest)).getLast? =
        some (SseMsg.record q)) := by
  refine ⟨?_, ?_, ?_, ?_⟩
  · intro st hst
    unfold reportStatusEndpoint
    rw [hst]
  · intro hexp
    unfold reportStatusEndpoint
    rw [hr]
    simp [hexp]
  · intro hexp
    unfold reportStatusEndpoint
    rw [hr]
    simp only [hexp, Bool.false_eq_true, if_false]
    refine ⟨?_, trivial⟩
    unfold checkStatusLoop
    rw [hr]
    by_cases ht : isTerminal r.status <;> simp [ht]
  · intro pre lastS rest q hpre hlast hterm
    exact checkStatusLoop_terminal_last jobId pre lastS rest q hpre hlast hterm

/-- C4: the download endpoint's cases, in the order the source checks
them: unknown id gives 404; a record that is not completed or has a falsy
file path gives 400 not-ready; an expired completed record gives 400
expired and is deleted; otherwise the stub CSV is served with
`text/csv` content type and an attachment disposition. -/
theorem download_report_contract (store : Store) (jobId : String)
    (now : Nat) (r : ReportData) (hr : store jobId = some r) :
    (∀ st : Store, st jobId = none →
      downloadReport st jobId now =
        (DownloadOutcome.notFound 404 "Report not found", st)) ∧
    (r.status ≠ Status.completed ∨ strOptFalsy r.filePath = true →
      downloadReport store jobId now =
        (DownloadOutcome.notReady 400 "Report is not ready for download", store)) ∧
    (r.status = Status.completed → strOptFalsy r.filePath = false →
      isExpired r now = true →
      downloadReport store jobId now =
        (DownloadOutcome.expired 400 "Report has expired", store.delete jobId)) ∧
    (r.status = Status.completed → strOptFalsy r.filePath = false →
      isExpired r now = false →
      downloadReport store jobId now =
        (DownloadOutcome.success (downloadCsv r.name) "text/csv"
          ("attachment; filename=" ++ slugify r.name ++ ".csv"), store) ∧
      listStartsWith (downloadCsv r.name).toList "id,name,value".toList = true) := by
  refine ⟨?_, ?_, ?_, ?_⟩
  · intro st hst
    unfold downloadReport
    rw [hst]
  · intro hnr
    unfold downloadReport
    rw [hr]
    simp [hnr]
  · intro hc hf hexp
    unfold downloadReport
    rw [hr]
    have hcond : ¬(r.status ≠ Status.completed ∨ strOptFalsy r.filePath = true) := by
      intro h
      rcases h with h | h
      · exact h hc
      · rw [hf] at h; cases h
    simp [hcond, hexp]
  · intro hc hf hexp
    have hcond : ¬(r.status ≠ Status.completed ∨ strOptFalsy r.filePath = true) := by
      intro h
      rcases h with h | h
      · exact h hc
      · rw [hf] at h; cases h
    constructor
    · unfold downloadReport
      rw [hr]
      simp [hcond, hexp]
    · unfold downloadCsv
      by_cases hs : strIncludes (lowerString r.name) "sales" <;> simp [hs] <;> decide

/-- C5 counterexample: job `j1` is past the expiry window, yet its first
access through the download endpoint fails with not-ready and leaves the
record in the store — the access does not delete it. -/
theorem expired_claim_counterexample :
    isExpired expRecord 1800001 = true ∧
    expStore "j1" = some expRecord ∧
    (downloadReport expStore "j1" 1800001).1 =
      DownloadOutcome.notReady 400 "Report is not ready for download" ∧
    (downloadReport expStore "j1" 1800001).2 "j1" = some expRecord := by
  decide

/-- C5 amended: an expired job is inaccessible — the status stream answers
with an expiry error and deletes the record, and the download endpoint
never serves it; but the download endpoint deletes the record only when it
is completed with a file path, and otherwise answers not-ready leaving the
store unchanged. -/
theorem expired_job_access (store : Store) (jobId : String) (now : Nat)
    (snaps : List Store) (r : ReportData)
    (hr : store jobId = some r) (hexp : isExpired r now = true) :
    reportStatusEndpoint store jobId now snaps =
      ([SseMsg.errMsg "Report expired"], store.delete jobId) ∧
    (∀ csv ct cd, (downloadReport store jobId now).1 ≠
      DownloadOutcome.success csv ct cd) ∧
    (r.status = Status.completed → strOptFalsy r.filePath = false →
      downloadReport store jobId now =
        (DownloadOutcome.expired 400 "Report has expired", store.delete jobId)) ∧
    (r.status ≠ Status.completed ∨ strOptFalsy r.filePath = true →
      downloadReport store jobId now =
        (DownloadOutcome.notReady 400 "Report is not ready for download", store)) := by
  refine ⟨?_, ?_, ?_, ?_⟩
  · unfold reportStatusEndpoint
    rw [hr]
    simp [hexp]
  · intro csv ct cd
    unfold downloadReport
    rw [hr]
    by_cases hnr : r.status ≠ Status.completed ∨ strOptFalsy r.filePath = true
    · simp [hnr]
    · simp [hnr, hexp]
  · intro hc hf
    have hcond : ¬(r.status ≠ Status.completed ∨ strOptFalsy r.filePath = true) := by
      intro h
      rcases h with h | h
      · exact h hc
      · rw [hf] at h; cases h
    unfold downloadReport
    rw [hr]
    simp [hcond, hexp]
  · intro hnr
    unfold downloadReport
    rw [hr]
    simp [hnr]

/-- C10: the two read endpoints never insert or modify a record; the only
mutation either performs is deleting the requested job on the expiry path,
and a successful download leaves the store untouched. -/
theorem read_endpoints_frame (store : Store) (jobId : String) (now : Nat)
    (snaps : List Store) :
    (store jobId = none →
      (reportStatusEndpoint store jobId now snaps).2 = store ∧
      (downloadReport store jobId now).2 = store) ∧
    (∀ r, store jobId = some r → isExpired r now = false →
      (reportStatusEndpoint store jobId now snaps).2 = store ∧
      (downloadReport store jobId now).2 = store) ∧
    (∀ r, store jobId = some r → isExpired r now = true →
      (reportStatusEndpoint store jobId now snaps).2 = store.delete jobId ∧
      ((downloadReport store jobId now).2 = store ∨
       (downloadReport store jobId now).2 = store.delete jobId)) ∧
    (∀ id, id ≠ jobId → store.delete jobId id = store id) ∧
    (∀ csv ct cd, (downloadReport store jobId now).1 =
        DownloadOutcome.success csv ct cd →
      (downloadReport store jobId now).2 = store) := by
  refine ⟨?_, ?_, ?_, ?_, ?_⟩
  · intro hnone
    constructor
    · unfold reportStatusEndpoint; rw [hnone]
    · unfold downloadReport; rw [hnone]
  · intro r hr hexp
    constructor
    · unfold reportStatusEndpoint; rw [hr]; simp [hexp]
    · unfold downloadReport
      rw [hr]
      by_cases hnr : r.status ≠ Status.completed ∨ strOptFalsy r.filePath = true
      · simp [hnr]
      · simp [hnr, hexp]
  · intro r hr hexp
    constructor
    · unfold reportStatusEndpoint; rw [hr]; simp [hexp]
    · unfold downloadReport
      rw [hr]
      by_cases hnr : r.status ≠ Status.completed ∨ strOptFalsy r.filePath = true
      · simp [hnr]
      · simp [hnr, hexp]
  · intro id hid
    exact Store.delete_other _ _ _ hid
  · intro csv ct cd hsucc
    unfold downloadReport at hsucc ⊢
    cases hstore : store jobId with
    | none => simp [hstore] at hsucc
    | some r =>
      rw [hstore] at hsucc
      by_cases hnr : r.status ≠ Status.completed ∨ strOptFalsy r.filePath = true
      · simp [hnr] at hsucc
      · by_cases hexp : isExpired r now
        · simp [hnr, hexp] at hsucc
        · simp [hnr, hexp]

/-- C8: the rehydrated list is exactly the stored jobs that are neither
completed nor expired; in particular every stored failed job inside the
window survives the reload. -/
theorem rehydrate_contract (stored : List ReportJob) (now expiryTime : Nat)
    (j : ReportJob) (hj : j ∈ stored)
    (hnc : j.status.status ≠ Status.completed)
    (hage : now - j.createdAt < expiryTime) :
    j ∈ rehydrateJobs stored now expiryTime ∧
    (∀ k ∈ rehydrateJobs stored now expiryTime,
      k ∈ stored ∧ k.status.status ≠ Status.completed ∧
        now - k.createdAt < expiryTime) ∧
    (∀ k ∈ stored, k.status.status = Status.failed →
      now - k.createdAt < expiryTime →
      k ∈ rehydrateJobs stored now expiryTime) := by
  refine ⟨?_, ?_, ?_⟩
  · rw [rehydrateJobs, List.mem_filter]
    exact ⟨hj, by simp [hnc, hage]⟩
  · intro k hk
    rw [rehydrateJobs, List.mem_filter] at hk
    obtain ⟨hmem, hp⟩ := hk
    simp only [Bool.and_eq_true, decide_eq_true_eq] at hp
    exact ⟨hmem, hp.1, hp.2⟩
  · intro k hk hkf hkage
    rw [rehydrateJobs, List.mem_filter]
    refine ⟨hk, ?_⟩
    have hknc : k.status.status ≠ Status.completed := by
      rw [hkf]; intro h; cases h
    simp [hknc, hkage]

theorem updateJob_id (streamId : String) (data : ClientStatus) (now : Nat)
    (j : ReportJob) : (updateJob streamId data now j).1.id = j.id := by
  unfold updateJob
  by_cases h1 : j.id = streamId
  · by_cases h2 : data.status = Status.completed ∧ j.downloaded = false <;>
      simp [h1, h2]
  · simp [h1]

/-- One `map` body never increases the trigger count plus remaining
trigger potential of an entry. -/
theorem updateJob_weight (streamId : String) (data : ClientStatus)
    (now : Nat) (j : ReportJob) :
    (updateJob streamId data now j).2 +
      undlWeight streamId (updateJob streamId data now j).1 ≤
      undlWeight streamId j := by
  unfold updateJob undlWeight
  by_cases h1 : j.id = streamId
  · by_cases h2 : data.status = Status.completed ∧ j.downloaded = false
    · simp [h1, h2]
    · simp [h1, h2]
  · simp [h1]

/-- One `onmessage` event never increases trigger count plus remaining
potential of the whole list. -/
theorem applyMessage_count_le (streamId : String) (data : ClientStatus)
    (now : Nat) (jobs : List ReportJob) :
    (applyMessage streamId data now jobs).2 +
      undlCount streamId (applyMessage streamId data now jobs).1 ≤
      undlCount streamId jobs := by
  induction jobs with
  | nil => simp [applyMessage, undlCount]
  | cons j rest ih =>
    simp only [applyMessage, undlCount]
    have h := updateJob_weight streamId data now j
    omega

/-- Any frame sequence triggers at most `undlCount` downloads. -/
theorem runMessages_count_le (streamId : String)
    (msgs : List (ClientStatus × Nat)) (jobs : List ReportJob) :
    (runMessages streamId jobs msgs).2 ≤ undlCount streamId jobs := by
  induction msgs generalizing jobs with
  | nil => simp [runMessages]
  | cons m msgs ih =>
    obtain ⟨d, t⟩ := m
    simp only [runMessages]
    have h1 := applyMessage_count_le streamId d t jobs
    have h2 := ih (applyMessage streamId d t jobs).1
    omega

/-- A completed frame for a matching, not-yet-downloaded entry does
trigger a navigation. -/
theorem applyMessage_triggers (streamId : String) (data : ClientStatus)
    (now : Nat) (j : ReportJob) (hid : j.id = streamId)
    (hdl : j.downloaded = false) (hc : data.status = Status.completed) :
    ∀ jobs : List ReportJob, j ∈ jobs →
      1 ≤ (applyMessage streamId data now jobs).2 := by
  intro jobs
  induction jobs with
  | nil => intro h; cases h
  | cons a rest ih =>
    intro hj
    simp only [applyMessage]
    rcases List.mem_cons.mp hj with h | h
    · subst h
      have hone : (updateJob streamId data now j).2 = 1 := by
        unfold updateJob
        simp [hid, hc, hdl]
      omega
    · have := ih h
      omega

/-- After a completed frame, every matching entry is marked downloaded. -/
theorem applyMessage_marks (streamId : String) (data : ClientStatus)
    (now : Nat) (hc : data.status = Status.completed) :
    ∀ jobs : List ReportJob, ∀ k ∈ (applyMessage streamId data now jobs).1,
      k.id = streamId → k.downloaded = true := by
  intro jobs
  induction jobs with
  | nil => intro k hk; cases hk
  | cons a rest ih =>
    intro k hk hkid
    simp only [applyMessage, List.mem_cons] at hk
    rcases hk with h | h
    · subst h
      rw [updateJob_id] at hkid
      unfold updateJob
      by_cases h2 : data.status = Status.completed ∧ a.downloaded = false
      · simp [hkid, h2]
      · cases hdla : a.downloaded with
        | false => exact absurd ⟨hc, hdla⟩ h2
        | true => simp [hkid, h2, hdla]
    · exact ih k h hkid

/-- C9: on the first completed frame for a job not yet marked downloaded
the navigation fires exactly once and the entry is marked downloaded, and
over any sequence of frames on that job's stream the navigation fires at
most once in total. -/
theorem download_triggered_once (streamId : String) (jobs : List ReportJob)
    (msgs : List (ClientStatus × Nat)) (data : ClientStatus) (now : Nat)
    (j : ReportJob) (huniq : undlCount streamId jobs ≤ 1)
    (hj : j ∈ jobs) (hid : j.id = streamId) (hdl : j.downloaded = false)
    (hc : data.status = Status.completed) :
    (applyMessage streamId data now jobs).2 = 1 ∧
    (∀ k ∈ (applyMessage streamId data now jobs).1,
      k.id = streamId → k.downloaded = true) ∧
    (runMessages streamId jobs msgs).2 ≤ 1 := by
  refine ⟨?_, ?_, ?_⟩
  · have hge := applyMessage_triggers streamId data now j hid hdl hc jobs hj
    have hle := applyMessage_count_le streamId data now jobs
    omega
  · exact applyMessage_marks streamId data now hc jobs
  · have h := runMessages_count_le streamId msgs jobs
    omega

/-- C6: submitting "Sales Report" returns the job id at once with the
8-second delay scheduled; the completed record's file path contains
"sales-report"; downloading yields the sales CSV, which starts with
"id,name,value" and contains "Product A". -/
theorem sales_report_scenario :
    (generateReport Store.empty "Sales Report" "job-1" 1000).outcome =
      GenOutcome.created "job-1" ∧
    (generateReport Store.empty "Sales Report" "job-1" 1000).task = some c6Task ∧
    c6Task.delay = 8000 ∧
    c6Store "job-1" =
      some { status := Status.completed, name := "Sales Report",
             createdAt := 1000,
             filePath := some "/reports/sales-report-job-1.csv" } ∧
    strIncludes "/reports/sales-report-job-1.csv" "sales-report" = true ∧
    (downloadReport c6Store "job-1" 9001).1 =
      DownloadOutcome.success salesCsvContent "text/csv"
        "attachment; filename=sales-report.csv" ∧
    listStartsWith salesCsvContent.toList "id,name,value".toList = true ∧
    strIncludes salesCsvContent "Product A" = true := by
  decide

theorem job_record_lifecycle_witness :
    c1Completed.name = c1Pending.name ∧
    c1Completed.createdAt = c1Pending.createdAt ∧
    (c1Completed.status = c1Pending.status ∨
      (c1Pending.status = Status.pending ∧
        (c1Completed.status = Status.completed ∨
         c1Completed.status = Status.failed))) ∧
    (isTerminal c1Pending.status = true → c1Completed = c1Pending) ∧
    (c1Pending.status = Status.pending →
      c1Pending.filePath = none ∧ c1Pending.error = none) ∧
    (c1Completed.status = Status.completed → c1Completed.filePath ≠ none) ∧
    (c1Completed.status = Status.failed → c1Completed.error ≠ none) :=
  job_record_lifecycle
    (Reachable.step Reachable.init
      (Step.gen initState "A" "j1" 0 (by decide) (by decide)))
    (Step.complete c1State c1Task (by decide))
    "j1" c1Pending c1Completed (by decide) (by decide)

theorem no_failed_on_server_witness :
    c1Pending.status ≠ Status.failed ∧
    ∀ (store : Store) (t : ScheduledTask),
      completeJob store t t.jobId =
        some { status := Status.completed, name := t.name,
               createdAt := t.createdAt,
               filePath := some (synthFilePath t) } :=
  no_failed_on_server
    (Reachable.step Reachable.init
      (Step.gen initState "A" "j1" 0 (by decide) (by decide)))
    "j1" c1Pending (by decide)

theorem generate_report_contract_witness :
    (generateReport Store.empty "" "j1" 5).outcome =
      GenOutcome.validationError 400 "Report name is required" ∧
    (generateReport Store.empty "" "j1" 5).store = Store.empty ∧
    (generateReport Store.empty "" "j1" 5).task = none ∧
    (generateReport Store.empty "Sales Report" "j1" 5).outcome =
      GenOutcome.created "j1" ∧
    (generateReport Store.empty "Sales Report" "j1" 5).store "j1" =
      some { status := Status.pending, name := "Sales Report", createdAt := 5 } ∧
    (∀ id, id ≠ "j1" →
      (generateReport Store.empty "Sales Report" "j1" 5).store id =
        Store.empty id) ∧
    (∀ s, Reachable s → s.usedIds.Nodup) :=
  generate_report_contract Store.empty "Sales Report" "j1" 5 (by decide)

theorem status_stream_behavior_witness :
    (∀ st : Store, st "j1" = none →
      reportStatusEndpoint st "j1" 100 [] =
        ([SseMsg.errMsg "Report not found"], st)) ∧
    (isExpired expRecord 100 = true →
      reportStatusEndpoint expStore "j1" 100 [] =
        ([SseMsg.errMsg "Report expired"], expStore.delete "j1")) ∧
    (isExpired expRecord 100 = false →
      (reportStatusEndpoint expStore "j1" 100 []).1.head? =
        some (SseMsg.record expRecord) ∧
      (reportStatusEndpoint expStore "j1" 100 []).2 = expStore) ∧
    (∀ (pre : List Store) (lastS : Store) (rest : List Store) (q : ReportData),
      (∀ st ∈ pre, ∃ p, st "j1" = some p ∧ isTerminal p.status = false) →
      lastS "j1" = some q → isTerminal q.status = true →
      (checkStatusLoop "j1" (pre ++ lastS :: rest)).getLast? =
        some (SseMsg.record q)) :=
  status_stream_behavior expStore "j1" 100 [] expRecord (by decide)

theorem download_report_contract_witness :
    (∀ st : Store, st "j2" = none →
      downloadReport st "j2" 100 =
        (DownloadOutcome.notFound 404 "Report not found", st)) ∧
    (expDoneRecord.status ≠ Status.completed ∨
        strOptFalsy expDoneRecord.filePath = true →
      downloadReport expDoneStore "j2" 100 =
        (DownloadOutcome.notReady 400 "Report is not ready for download",
          expDoneStore)) ∧
    (expDoneRecord.status = Status.completed →
      strOptFalsy expDoneRecord.filePath = false →
      isExpired expDoneRecord 100 = true →
      downloadReport expDoneStore "j2" 100 =
        (DownloadOutcome.expired 400 "Report has expired",
          expDoneStore.delete "j2")) ∧
    (expDoneRecord.status = Status.completed →
      strOptFalsy expDoneRecord.filePath = false →
      isExpired expDoneRecord 100 = false →
      downloadReport expDoneStore "j2" 100 =
        (DownloadOutcome.success (downloadCsv expDoneRecord.name) "text/csv"
          ("attachment; filename=" ++ slugify expDoneRecord.name ++ ".csv"),
          expDoneStore) ∧
      listStartsWith (downloadCsv expDoneRecord.name).toList
        "id,name,value".toList = true) :=
  download_report_contract expDoneStore "j2" 100 expDoneRecord (by decide)

theorem expired_job_access_witness :
    reportStatusEndpoint expDoneStore "j2" 1800001 [] =
      ([SseMsg.errMsg "Report expired"], expDoneStore.delete "j2") ∧
    (∀ csv ct cd, (downloadReport expDoneStore "j2" 1800001).1 ≠
      DownloadOutcome.success csv ct cd) ∧
    (expDoneRecord.status = Status.completed →
      strOptFalsy expDoneRecord.filePath = false →
      downloadReport expDoneStore "j2" 1800001 =
        (DownloadOutcome.expired 400 "Report has expired",
          expDoneStore.delete "j2")) ∧
    (expDoneRecord.status ≠ Status.completed ∨
        strOptFalsy expDoneRecord.filePath = true →
      downloadReport expDoneStore "j2" 1800001 =
        (DownloadOutcome.notReady 400 "Report is not ready for download",
          expDoneStore)) :=
  expired_job_access expDoneStore "j2" 1800001 [] expDoneRecord
    (by decide) (by decide)

theorem rehydrate_contract_witness :
    c8Job ∈ rehydrateJobs [c8Job] 10 100 ∧
    (∀ k ∈ rehydrateJobs [c8Job] 10 100,
      k ∈ [c8Job] ∧ k.status.status ≠ Status.completed ∧
        10 - k.createdAt < 100) ∧
    (∀ k ∈ [c8Job], k.status.status = Status.failed →
      10 - k.createdAt < 100 →
      k ∈ rehydrateJobs [c8Job] 10 100) :=
  rehydrate_contract [c8Job] 10 100 c8Job (by decide) (by decide) (by decide)

theorem download_triggered_once_witness :
    (applyMessage "a" c9Done 5 [c9Job]).2 = 1 ∧
    (∀ k ∈ (applyMessage "a" c9Done 5 [c9Job]).1,
      k.id = "a" → k.downloaded = true) ∧
    (runMessages "a" [c9Job] [(c9Done, 6), (c9Done, 7)]).2 ≤ 1 :=
  download_triggered_once "a" [c9Job] [(c9Done, 6), (c9Done, 7)] c9Done 5
    c9Job (by decide) (by decide) (by decide) (by decide) (by decide)

theorem read_endpoints_frame_witness :
    (expStore "j1" = none →
      (reportStatusEndpoint expStore "j1" 100 []).2 = expStore ∧
      (downloadReport expStore "j1" 100).2 = expStore) ∧
    (∀ r, expStore "j1" = some r → isExpired r 100 = false →
      (reportStatusEndpoint expStore "j1" 100 []).2 = expStore ∧
      (downloadReport expStore "j1" 100).2 = expStore) ∧
    (∀ r, expStore "j1" = some r → isExpired r 100 = true →
      (reportStatusEndpoint expStore "j1" 100 []).2 = expStore.delete "j1" ∧
      ((downloadReport expStore "j1" 100).2 = expStore ∨
       (downloadReport expStore "j1" 100).2 = expStore.delete "j1")) ∧
    (∀ id, id ≠ "j1" → expStore.delete "j1" id = expStore id) ∧
    (∀ csv ct cd, (downloadReport expStore "j1" 100).1 =
        DownloadOutcome.success csv ct cd →
      (downloadReport expStore "j1" 100).2 = expStore) :=
  read_endpoints_frame expStore "j1" 100 []
